import Mathlib

/-!
Verification of the career-counselor service's scoring engine and resume
upload handler, embedded shallowly from `src/agent.py`.

Python strings are modelled as Lean `String` (a list of code points);
Python string slicing `s[:n]` becomes `List.take` on `String.data`,
`str.endswith` becomes a suffix test on the character list, and
`sep.join(xs)` becomes a structurally recursive join.  The Python dict
`category_scores` (which preserves insertion order) is modelled as an
association list with in-place update / append-on-new-key semantics.
Python's `sorted(..., key=lambda x: x[1], reverse=True)` is a stable sort
placing larger second components first; it is modelled by
`List.insertionSort` with the relation `b.2 ≤ a.2`, which is stable and
sorts descending by score.  Exceptions are modelled with `Except String`,
and the `try/except` body of `upload_resume` as a function from the
outcomes of its effectful steps (file read, PDF page extraction, DOCX
paragraph extraction, LLM call) to the returned payload.
-/

namespace CareerCounselor

/-- A survey statement from the fixed catalog (`id`, `category`, `text`). -/
structure Statement where
  id : Int
  category : String
  text : String
deriving DecidableEq

/-- The fixed statement catalog `STATEMENTS` from `src/agent.py`. -/
def STATEMENTS : List Statement :=
  [ ⟨1, "Data", "I enjoy exploring large datasets to find meaningful patterns."⟩,
    ⟨2, "Data Analysis", "I like using statistical tools to turn raw data into insights."⟩,
    ⟨3, "ML Ops", "Automating model deployment and monitoring excites me."⟩,
    ⟨4, "Building Applications", "Building end-to-end software products motivates me."⟩,
    ⟨5, "Agents", "Designing autonomous AI agents that act without constant oversight appeals to me."⟩,
    ⟨6, "Chatbots", "Crafting chatbots that hold natural conversations is rewarding."⟩,
    ⟨7, "Evals & Testing", "I enjoy stress-testing AI models to measure real-world performance."⟩,
    ⟨8, "Cost Control & Reduction", "Finding ways to cut compute costs in ML workflows motivates me."⟩,
    ⟨9, "Fine-Tuning", "Adapting pre-trained models to niche use cases interests me."⟩,
    ⟨10, "Guardrails", "Implementing robust safety and ethical guardrails for AI systems matters to me."⟩ ]

/-- A user answer: a statement id and an integer rating. -/
structure UserAnswer where
  statement_id : Int
  rating : Int
deriving DecidableEq

/-- `next((s for s in STATEMENTS if s["id"] == ans.statement_id), None)`. -/
def findStatement (sid : Int) : Option Statement :=
  STATEMENTS.find? (fun s => s.id == sid)

/-- The category of the catalog statement an answer references, if any. -/
def categoryOf (sid : Int) : Option String :=
  (findStatement sid).map (fun s => s.category)

/-- Python `d.get(k, v₀)` on the ordered dict modelled as an association list. -/
def dictGet (d : List (String × Int)) (k : String) (v₀ : Int) : Int :=
  match d.find? (fun p => p.1 == k) with
  | some p => p.2
  | none => v₀

/-- Python `d[k] = v` on an insertion-ordered dict: update in place if the
key is present, otherwise append the new key at the end. -/
def dictSet (d : List (String × Int)) (k : String) (v : Int) : List (String × Int) :=
  if d.any (fun p => p.1 == k) then
    d.map (fun p => if p.1 == k then (k, v) else p)
  else
    d ++ [(k, v)]

/-- One iteration of the scoring loop in `submit_answers`: look the answer's
statement up in the catalog; if found, add the rating to that statement's
category total (default 0), otherwise leave the dict unchanged. -/
def scoreStep (d : List (String × Int)) (ans : UserAnswer) : List (String × Int) :=
  match findStatement ans.statement_id with
  | some stmt => dictSet d stmt.category (dictGet d stmt.category 0 + ans.rating)
  | none => d

/-- The `category_scores` dict computed by `submit_answers`. -/
def category_scores (answers : List UserAnswer) : List (String × Int) :=
  answers.foldl scoreStep []

/-- The comparison used by `sorted(category_scores.items(), key=lambda x: x[1],
reverse=True)`: `a` may come before `b` iff `a`'s score is at least `b`'s. -/
def scoreDescRel (a b : String × Int) : Prop := b.2 ≤ a.2

instance : DecidableRel scoreDescRel := fun a b => Int.decLe b.2 a.2

instance : IsTotal (String × Int) scoreDescRel := ⟨fun a b => le_total b.2 a.2⟩

instance : IsTrans (String × Int) scoreDescRel :=
  ⟨fun _ _ _ hab hbc => le_trans hbc hab⟩

/-- `top_categories` in `submit_answers`: the score pairs sorted by score
descending with Python's stable sort. -/
def top_categories (answers : List UserAnswer) : List (String × Int) :=
  List.insertionSort scoreDescRel (category_scores answers)

/-- `top_list` in `submit_answers`: the categories of the sorted pairs whose
score is strictly positive, in sorted order. -/
def top_list (answers : List UserAnswer) : List String :=
  ((top_categories answers).filter (fun p => 0 < p.2)).map Prod.fst

/-- Spec-side quantity: the arithmetic sum of the ratings of the answers
whose statement belongs to the given category. -/
def ratingSumFor (answers : List UserAnswer) (cat : String) : Int :=
  ((answers.filter (fun a => categoryOf a.statement_id == some cat)).map
    (fun a => a.rating)).sum

/-- Look a category up in an association-list dict, returning its value. -/
def dFind (d : List (String × Int)) (cat : String) : Option Int :=
  (d.find? (fun p => p.1 == cat)).map (fun p => p.2)

/-- The score `category_scores` assigns to a category, if any. -/
def lookupScore (answers : List UserAnswer) (cat : String) : Option Int :=
  dFind (category_scores answers) cat

/-- Whether some answer references a catalog statement of the category. -/
def hasCat (answers : List UserAnswer) (cat : String) : Bool :=
  answers.any (fun a => categoryOf a.statement_id == some cat)

/-- The score assigned to a category, defaulting to 0. -/
def scoreVal (answers : List UserAnswer) (cat : String) : Int :=
  (lookupScore answers cat).getD 0

/-- One step of the first-encounter order of categories along the answers. -/
def encStep (acc : List String) (a : UserAnswer) : List String :=
  match categoryOf a.statement_id with
  | some c => if acc.contains c then acc else acc ++ [c]
  | none => acc

/-- The categories in the order the scoring loop first encounters them. -/
def encounterOrder (answers : List UserAnswer) : List String :=
  answers.foldl encStep []

/-- The example input from the spec: ratings for statements 1, 2 and 3. -/
def exampleAnswers : List UserAnswer := [⟨1, 1⟩, ⟨2, 1⟩, ⟨3, -1⟩]

/-- Python `s.endswith(pat)`: a suffix test on the code-point sequence. -/
def pyEndsWith (s pat : String) : Bool := pat.data.isSuffixOf s.data

/-- Python `s[:n]`: the first `n` code points of the string. -/
def pySlice (s : String) (n : Nat) : String := ⟨s.data.take n⟩

/-- Python `sep.join(xs)`. -/
def pyJoin (sep : String) : List String → String
  | [] => ""
  | [s] => s
  | s :: t :: rest => s ++ sep ++ pyJoin sep (t :: rest)

/-- The error message of the unsupported-file-type payload. -/
def unsupportedMsg : String := "Unsupported file type. Only PDF and DOC/DOCX allowed."

/-- `"\n".join([page.extract_text() or "" for page in reader.pages])`: each
page's extraction outcome is its returned text, `none` standing for a `None`
(or empty) return, which the `or ""` replaces by the empty string. -/
def pdfExtract (pages : List (Option String)) : String :=
  pyJoin "\n" (pages.map (fun p => p.getD ""))

/-- `"\n".join([para.text for para in doc.paragraphs])`. -/
def docExtract (paras : List String) : String := pyJoin "\n" paras

/-- The JSON payload `upload_resume` returns: either the success dict with
`filename` and `career_recommendations`, or the error dict. -/
inductive UploadResult where
  | success (filename : String) (recommendations : String)
  | errorPayload (msg : String)
deriving DecidableEq

/-- The resume prompt template of `upload_resume` around the (already
truncated) resume text. -/
def resumePrompt (text : String) : String :=
  "Analyze the following resume and suggest 3-5 Gen-AI career paths:\nResume Content: " ++
    text ++
    "\nFor each suggestion, include:\n- Main Gen-AI area\n- Why it fits\n- Two practical starting steps"

/-- The `try:` body of `upload_resume`, as a function of the outcomes of its
effectful steps: `readRes` is `await file.read()`, `pdfPages` the outcome of
`PdfReader` plus per-page extraction, `docParas` the outcome of
`docx.Document` paragraph extraction, and `llm` the chat-completion call.
`Except.error e` models an exception with message `e` escaping the step. -/
def uploadBody (fname : String) (readRes : Except String Unit)
    (pdfPages : Except String (List (Option String)))
    (docParas : Except String (List String))
    (llm : String → Except String String) : Except String UploadResult := do
  let _ ← readRes
  let textOpt ←
    if pyEndsWith fname ".pdf" then do
      let pages ← pdfPages
      pure (some (pdfExtract pages))
    else if pyEndsWith fname ".doc" || pyEndsWith fname ".docx" then do
      let paras ← docParas
      pure (some (docExtract paras))
    else
      pure none
  match textOpt with
  | none => return UploadResult.errorPayload unsupportedMsg
  | some t =>
    let truncated := pySlice t 3000
    let out ← llm (resumePrompt truncated)
    return UploadResult.success fname out

/-- The whole `upload_resume` handler: the `try:` body with the `except
Exception as e: return {"error": str(e)}` wrapper around it. -/
def upload_resume (fname : String) (readRes : Except String Unit)
    (pdfPages : Except String (List (Option String)))
    (docParas : Except String (List String))
    (llm : String → Except String String) : UploadResult :=
  match uploadBody fname readRes pdfPages docParas llm with
  | Except.ok res => res
  | Except.error e => UploadResult.errorPayload e

end CareerCounselor

namespace CareerCounselor

theorem bool_false_of_not {b : Bool} (h : ¬ b = true) : b = false := by
  cases b
  · rfl
  · exact absurd rfl h

theorem find?_key_cons (x : String × Int) (t : List (String × Int)) (cat : String) :
    (x :: t).find? (fun p => p.1 == cat) =
      if x.1 == cat then some x else t.find? (fun p => p.1 == cat) := by
  rw [List.find?_cons]
  cases h : x.1 == cat
  · rfl
  · rfl

theorem find?_update_self (d : List (String × Int)) (k : String) (v : Int) :
    (d.map (fun p => if p.1 == k then (k, v) else p)).find? (fun p => p.1 == k) =
      if d.any (fun p => p.1 == k) then some (k, v) else none := by
  induction d with
  | nil => rfl
  | cons x t ih =>
    simp only [List.map_cons, List.any_cons]
    rw [find?_key_cons]
    by_cases hx : (x.1 == k) = true
    · rw [if_pos hx, if_pos (beq_self_eq_true k)]
      simp only [hx, Bool.true_or]
      rfl
    · rw [if_neg hx, if_neg hx]
      simp only [bool_false_of_not hx, Bool.false_or]
      exact ih

theorem find?_update_other (d : List (String × Int)) (k cat : String) (v : Int)
    (h : ¬ cat = k) :
    (d.map (fun p => if p.1 == k then (k, v) else p)).find? (fun p => p.1 == cat) =
      d.find? (fun p => p.1 == cat) := by
  have h1 : ((k : String) == cat) = false :=
    beq_eq_false_iff_ne.mpr (fun hh => h hh.symm)
  induction d with
  | nil => rfl
  | cons x t ih =>
    simp only [List.map_cons]
    rw [find?_key_cons, find?_key_cons]
    by_cases hx : (x.1 == k) = true
    · have hx' : x.1 = k := eq_of_beq hx
      rw [if_pos hx,
        if_neg (show ¬ (((k : String) == cat) = true) from by rw [h1]; exact Bool.false_ne_true),
        if_neg (show ¬ ((x.1 == cat) = true) from by rw [hx', h1]; exact Bool.false_ne_true)]
      exact ih
    · rw [if_neg hx]
      by_cases hc : (x.1 == cat) = true
      · rw [if_pos hc, if_pos hc]
      · rw [if_neg hc, if_neg hc, ih]

theorem dFind_dictSet_self (d : List (String × Int)) (k : String) (v : Int) :
    dFind (dictSet d k v) k = some v := by
  unfold dFind dictSet
  by_cases h : d.any (fun p => p.1 == k)
  · rw [if_pos h, find?_update_self, if_pos h]
    rfl
  · rw [if_neg h, List.find?_append]
    have hnone : d.find? (fun p => p.1 == k) = none := by
      rw [List.find?_eq_none]
      intro x hx hpk
      exact h (List.any_eq_true.mpr ⟨x, hx, hpk⟩)
    rw [hnone, Option.none_or, find?_key_cons, if_pos (beq_self_eq_true k)]
    rfl

theorem dFind_dictSet_other (d : List (String × Int)) (k cat : String) (v : Int)
    (h : ¬ cat = k) :
    dFind (dictSet d k v) cat = dFind d cat := by
  unfold dFind dictSet
  by_cases hany : d.any (fun p => p.1 == k)
  · rw [if_pos hany, find?_update_other d k cat v h]
  · rw [if_neg hany, List.find?_append]
    have h1 : ((k : String) == cat) = false :=
      beq_eq_false_iff_ne.mpr (fun hh => h hh.symm)
    rw [find?_key_cons,
      if_neg (show ¬ (((k : String) == cat) = true) from by rw [h1]; exact Bool.false_ne_true),
      List.find?_nil, Option.or_none]

theorem dictSet_keys (d : List (String × Int)) (k : String) (v : Int) :
    (dictSet d k v).map Prod.fst =
      if d.any (fun p => p.1 == k) then d.map Prod.fst else d.map Prod.fst ++ [k] := by
  unfold dictSet
  by_cases h : d.any (fun p => p.1 == k)
  · rw [if_pos h, if_pos h, List.map_map]
    apply List.map_congr_left
    intro p _
    show (if p.1 == k then (k, v) else p).1 = p.1
    by_cases hx : (p.1 == k) = true
    · rw [if_pos hx]
      exact (eq_of_beq hx).symm
    · rw [if_neg hx]
  · rw [if_neg h, if_neg h, List.map_append]
    rfl

theorem dictGet_eq_dFind (d : List (String × Int)) (k : String) :
    dictGet d k 0 = (dFind d k).getD 0 := by
  unfold dictGet dFind
  cases d.find? (fun p => p.1 == k) <;> rfl

theorem ratingSumFor_cons (a : UserAnswer) (rest : List UserAnswer) (cat : String) :
    ratingSumFor (a :: rest) cat =
      (if categoryOf a.statement_id == some cat then a.rating else 0) +
        ratingSumFor rest cat := by
  unfold ratingSumFor
  by_cases h : (categoryOf a.statement_id == some cat) = true
  · simp [List.filter_cons, h]
  · simp [List.filter_cons, h]

theorem hasCat_cons (a : UserAnswer) (rest : List UserAnswer) (cat : String) :
    hasCat (a :: rest) cat =
      ((categoryOf a.statement_id == some cat) || hasCat rest cat) := by
  rfl

theorem scoreFold_find (answers : List UserAnswer) (d : List (String × Int))
    (cat : String) :
    dFind (answers.foldl scoreStep d) cat =
      if (dFind d cat).isSome || hasCat answers cat then
        some ((dFind d cat).getD 0 + ratingSumFor answers cat)
      else none := by
  induction answers generalizing d with
  | nil =>
    cases h : dFind d cat <;>
      simp [h, hasCat, ratingSumFor, List.foldl_nil]
  | cons a rest ih =>
    rw [List.foldl_cons]
    cases hfs : findStatement a.statement_id with
    | none =>
      have hstep : scoreStep d a = d := by unfold scoreStep; rw [hfs]
      have hco : categoryOf a.statement_id = none := by unfold categoryOf; rw [hfs]; rfl
      rw [hstep, ih, hasCat_cons, ratingSumFor_cons, hco]
      simp
    | some stmt =>
      have hco : categoryOf a.statement_id = some stmt.category := by
        unfold categoryOf; rw [hfs]; rfl
      have hstep : scoreStep d a =
          dictSet d stmt.category (dictGet d stmt.category 0 + a.rating) := by
        unfold scoreStep; rw [hfs]
      rw [hstep, ih, hasCat_cons, ratingSumFor_cons, hco]
      by_cases hcc : cat = stmt.category
      · subst hcc
        rw [dFind_dictSet_self, dictGet_eq_dFind]
        simp [add_assoc]
      · rw [dFind_dictSet_other d stmt.category cat _ hcc]
        have : (some stmt.category == some cat) = false := by
          simp only [beq_eq_false_iff_ne, ne_eq, Option.some.injEq]
          exact fun hh => hcc hh.symm
        simp [this]

theorem category_scores_find (answers : List UserAnswer) (cat : String) :
    lookupScore answers cat =
      if hasCat answers cat then some (ratingSumFor answers cat) else none := by
  unfold lookupScore category_scores
  rw [scoreFold_find]
  simp [dFind]

theorem scoreFold_keys_nodup (answers : List UserAnswer) (d : List (String × Int))
    (h : (d.map Prod.fst).Nodup) :
    ((answers.foldl scoreStep d).map Prod.fst).Nodup := by
  induction answers generalizing d with
  | nil => exact h
  | cons a rest ih =>
    rw [List.foldl_cons]
    apply ih
    cases hfs : findStatement a.statement_id with
    | none =>
      have hstep : scoreStep d a = d := by unfold scoreStep; rw [hfs]
      rw [hstep]; exact h
    | some stmt =>
      have hstep : scoreStep d a =
          dictSet d stmt.category (dictGet d stmt.category 0 + a.rating) := by
        unfold scoreStep; rw [hfs]
      rw [hstep, dictSet_keys]
      by_cases hany : d.any (fun p => p.1 == stmt.category)
      · rw [if_pos hany]; exact h
      · rw [if_neg hany]
        rw [List.nodup_append]
        refine ⟨h, List.nodup_singleton _, ?_⟩
        intro x hx
        simp only [List.mem_singleton]
        intro hxk
        subst hxk
        obtain ⟨p, hp, hpk⟩ := List.mem_map.mp hx
        exact hany (List.any_eq_true.mpr ⟨p, hp, by simp [hpk]⟩)

theorem beq_str_comm (a b : String) : (a == b) = (b == a) := by
  by_cases h : a = b
  · rw [h]
  · rw [beq_eq_false_iff_ne.mpr h, beq_eq_false_iff_ne.mpr (Ne.symm h)]

theorem any_key_eq_contains (d : List (String × Int)) (k : String) :
    d.any (fun p => p.1 == k) = (d.map Prod.fst).contains k := by
  induction d with
  | nil => rfl
  | cons x t ih =>
    simp only [List.any_cons, List.map_cons, List.contains_cons, ih]
    congr 1
    exact beq_str_comm x.1 k

theorem scoreFold_keys (answers : List UserAnswer) (d : List (String × Int)) :
    (answers.foldl scoreStep d).map Prod.fst = answers.foldl encStep (d.map Prod.fst) := by
  induction answers generalizing d with
  | nil => rfl
  | cons a rest ih =>
    rw [List.foldl_cons, List.foldl_cons, ih]
    congr 1
    cases hfs : findStatement a.statement_id with
    | none =>
      have hco : categoryOf a.statement_id = none := by
        unfold categoryOf
        rw [hfs]
        rfl
      unfold scoreStep encStep
      rw [hfs, hco]
    | some stmt =>
      have hco : categoryOf a.statement_id = some stmt.category := by
        unfold categoryOf
        rw [hfs]
        rfl
      unfold scoreStep encStep
      rw [hfs, hco, dictSet_keys, any_key_eq_contains]

theorem category_scores_keys (answers : List UserAnswer) :
    (category_scores answers).map Prod.fst = encounterOrder answers :=
  scoreFold_keys answers []

theorem category_scores_nodup (answers : List UserAnswer) :
    ((category_scores answers).map Prod.fst).Nodup :=
  scoreFold_keys_nodup answers [] (by simp)

theorem find_eq_of_mem_nodup {d : List (String × Int)} (hnd : (d.map Prod.fst).Nodup)
    {c : String} {v : Int} (hp : (c, v) ∈ d) :
    d.find? (fun q => q.1 == c) = some (c, v) := by
  induction d with
  | nil => cases hp
  | cons x t ih =>
    rw [List.map_cons, List.nodup_cons] at hnd
    obtain ⟨hx, hnd'⟩ := hnd
    rw [find?_key_cons]
    rcases List.mem_cons.mp hp with he | hpt
    · rw [← he, if_pos (beq_self_eq_true c)]
    · have hne : (x.1 == c) = false := by
        apply beq_eq_false_iff_ne.mpr
        intro he
        apply hx
        rw [he]
        simpa using List.mem_map_of_mem Prod.fst hpt
      rw [if_neg (by rw [hne]; exact Bool.false_ne_true)]
      exact ih hnd' hpt

theorem find?_key_eq_some {d : List (String × Int)} {cat : String} {p : String × Int}
    (h : d.find? (fun q => q.1 == cat) = some p) : p.1 = cat ∧ p ∈ d := by
  induction d with
  | nil => cases h
  | cons x t ih =>
    rw [find?_key_cons] at h
    by_cases hx : (x.1 == cat) = true
    · rw [if_pos hx] at h
      injection h with h
      subst h
      exact ⟨eq_of_beq hx, List.mem_cons_self x t⟩
    · rw [if_neg hx] at h
      obtain ⟨h1, h2⟩ := ih h
      exact ⟨h1, List.mem_cons_of_mem x h2⟩

theorem mem_category_scores_iff (answers : List UserAnswer) (cat : String) (v : Int) :
    (cat, v) ∈ category_scores answers ↔ lookupScore answers cat = some v := by
  constructor
  · intro h
    unfold lookupScore dFind
    rw [find_eq_of_mem_nodup (category_scores_nodup answers) h]
    rfl
  · intro h
    unfold lookupScore dFind at h
    cases hf : (category_scores answers).find? (fun p => p.1 == cat) with
    | none => rw [hf] at h; cases h
    | some p =>
      rw [hf] at h
      have hp2 : p.2 = v := by simpa using h
      have hp1 : p.1 = cat := (find?_key_eq_some hf).1
      have hpm : p ∈ category_scores answers := (find?_key_eq_some hf).2
      have hpe : p = (cat, v) := by
        obtain ⟨p1, p2⟩ := p
        simp only at hp1 hp2
        rw [hp1, hp2]
      rw [← hpe]
      exact hpm

theorem top_list_mem (answers : List UserAnswer) (cat : String) :
    cat ∈ top_list answers ↔ ∃ v : Int, lookupScore answers cat = some v ∧ 0 < v := by
  unfold top_list
  constructor
  · intro h
    obtain ⟨p, hpf, hp1⟩ := List.mem_map.mp h
    obtain ⟨hpmem, hppos⟩ := List.mem_filter.mp hpf
    have hpcs : p ∈ category_scores answers := by
      unfold top_categories at hpmem
      exact (List.mem_insertionSort scoreDescRel).mp hpmem
    subst hp1
    refine ⟨p.2, ?_, ?_⟩
    · exact (mem_category_scores_iff answers p.1 p.2).mp hpcs
    · simpa using hppos
  · rintro ⟨v, hl, hv⟩
    have hmem : (cat, v) ∈ category_scores answers :=
      (mem_category_scores_iff answers cat v).mpr hl
    apply List.mem_map.mpr
    refine ⟨(cat, v), List.mem_filter.mpr ⟨?_, by simpa using hv⟩, rfl⟩
    unfold top_categories
    exact (List.mem_insertionSort scoreDescRel).mpr hmem

theorem top_list_sorted (answers : List UserAnswer) :
    (top_list answers).Pairwise (fun c₁ c₂ => scoreVal answers c₂ ≤ scoreVal answers c₁) := by
  unfold top_list
  rw [List.pairwise_map]
  have hsorted : (top_categories answers).Pairwise scoreDescRel :=
    List.sorted_insertionSort scoreDescRel (category_scores answers)
  have hfil : ((top_categories answers).filter (fun p => 0 < p.2)).Pairwise scoreDescRel :=
    hsorted.sublist (List.filter_sublist _)
  refine List.Pairwise.imp_of_mem ?_ hfil
  intro p q hp hq hpq
  have hpcs : p ∈ category_scores answers :=
    (List.mem_insertionSort scoreDescRel).mp (List.mem_filter.mp hp).1
  have hqcs : q ∈ category_scores answers :=
    (List.mem_insertionSort scoreDescRel).mp (List.mem_filter.mp hq).1
  have hpl : lookupScore answers p.1 = some p.2 :=
    (mem_category_scores_iff answers p.1 p.2).mp hpcs
  have hql : lookupScore answers q.1 = some q.2 :=
    (mem_category_scores_iff answers q.1 q.2).mp hqcs
  unfold scoreVal
  rw [hpl, hql]
  exact hpq

/-- C1: for every list of answers, `category_scores` maps a category to the
arithmetic sum of the ratings of the answers referencing a catalog statement
of that category when at least one such answer exists, holds no entry for a
category with no such answer, and its keys are pairwise distinct. -/
theorem claim1_category_scores_sums (answers : List UserAnswer) (cat : String) :
    ((category_scores answers).map Prod.fst).Nodup ∧
    lookupScore answers cat =
      (if hasCat answers cat then some (ratingSumFor answers cat) else none) :=
  ⟨category_scores_nodup answers, category_scores_find answers cat⟩

/-- C2: `top_list` (returned as `top_categories` in the response) contains
exactly the categories whose score is strictly positive, ordered by
descending score. -/
theorem claim2_top_list (answers : List UserAnswer) :
    (∀ cat : String,
      cat ∈ top_list answers ↔ ∃ v : Int, lookupScore answers cat = some v ∧ 0 < v) ∧
    (top_list answers).Pairwise (fun c₁ c₂ => scoreVal answers c₂ ≤ scoreVal answers c₁) :=
  ⟨fun cat => top_list_mem answers cat, top_list_sorted answers⟩

/-- C3: an answer whose statement id matches no catalog statement is
silently skipped: removing it changes neither `category_scores` nor
`top_list`. -/
theorem claim3_unknown_id_skipped (pre post : List UserAnswer) (a : UserAnswer)
    (h : findStatement a.statement_id = none) :
    category_scores (pre ++ a :: post) = category_scores (pre ++ post) ∧
    top_list (pre ++ a :: post) = top_list (pre ++ post) := by
  have hcs : category_scores (pre ++ a :: post) = category_scores (pre ++ post) := by
    unfold category_scores
    rw [List.foldl_append, List.foldl_append, List.foldl_cons]
    congr 1
    unfold scoreStep
    rw [h]
  refine ⟨hcs, ?_⟩
  unfold top_list top_categories
  rw [hcs]

theorem claim3_witness :
    category_scores ([⟨1, 1⟩] ++ ⟨99, 5⟩ :: [⟨2, 1⟩]) = category_scores ([⟨1, 1⟩] ++ [⟨2, 1⟩]) ∧
    top_list ([⟨1, 1⟩] ++ ⟨99, 5⟩ :: [⟨2, 1⟩]) = top_list ([⟨1, 1⟩] ++ [⟨2, 1⟩]) :=
  claim3_unknown_id_skipped [⟨1, 1⟩] [⟨2, 1⟩] ⟨99, 5⟩ (by decide)

/-- C8: the empty answer list yields an empty score map and an empty
top-category list. -/
theorem claim8_empty_answers : category_scores [] = [] ∧ top_list [] = [] :=
  ⟨rfl, rfl⟩

/-- C9: the spec example: ratings +1, +1, -1 for statements 1, 2, 3 yield
scores Data = 1, Data Analysis = 1, ML Ops = -1, and the top categories
Data then Data Analysis. -/
theorem claim9_example :
    category_scores exampleAnswers =
      [( "Data", 1), ( "Data Analysis", 1), ( "ML Ops", -1)] ∧
    top_list exampleAnswers = [ "Data", "Data Analysis"] := by
  constructor
  · decide
  · decide

theorem mem_value_eq {answers : List UserAnswer} {c : String} {v w : Int}
    (hv : (c, v) ∈ category_scores answers) (hw : (c, w) ∈ category_scores answers) :
    v = w := by
  have h1 := find_eq_of_mem_nodup (category_scores_nodup answers) hv
  have h2 := find_eq_of_mem_nodup (category_scores_nodup answers) hw
  rw [h1] at h2
  simpa using h2

/-- C10: categories with equal positive scores appear in `top_list` in the
order the scoring loop first encountered them: the sort is stable and the
score dict preserves first-insertion order. -/
theorem claim10_stable_tie_break (answers : List UserAnswer) (c₁ c₂ : String) (s : Int)
    (h₁ : lookupScore answers c₁ = some s)
    (h₂ : lookupScore answers c₂ = some s)
    (hpos : 0 < s)
    (hord : List.Sublist [c₁, c₂] (encounterOrder answers)) :
    List.Sublist [c₁, c₂] (top_list answers) := by
  have hm₁ : (c₁, s) ∈ category_scores answers :=
    (mem_category_scores_iff answers c₁ s).mpr h₁
  have hm₂ : (c₂, s) ∈ category_scores answers :=
    (mem_category_scores_iff answers c₂ s).mpr h₂
  rw [← category_scores_keys] at hord
  obtain ⟨l', hl's, hl'm⟩ := List.sublist_map_iff.mp hord
  cases l' with
  | nil => simp at hl'm
  | cons p₁ rest =>
    cases rest with
    | nil => simp at hl'm
    | cons p₂ rest₂ =>
      cases rest₂ with
      | cons p₃ rest₃ => simp at hl'm
      | nil =>
        simp only [List.map_cons, List.map_nil] at hl'm
        have hc : c₁ = p₁.1 ∧ c₂ = p₂.1 := by simpa using hl'm
        obtain ⟨hc₁, hc₂⟩ := hc
        have hp₁ : p₁ = (c₁, s) := by
          obtain ⟨a, b⟩ := p₁
          simp only at hc₁
          subst hc₁
          have hbm : (c₁, b) ∈ category_scores answers :=
            hl's.subset (List.mem_cons_self _ _)
          rw [mem_value_eq hbm hm₁]
        have hp₂ : p₂ = (c₂, s) := by
          obtain ⟨a, b⟩ := p₂
          simp only at hc₂
          subst hc₂
          have hbm : (c₂, b) ∈ category_scores answers :=
            hl's.subset (List.mem_cons_of_mem _ (List.mem_cons_self _ _))
          rw [mem_value_eq hbm hm₂]
        rw [hp₁, hp₂] at hl's
        have hsorted : List.Sublist [(c₁, s), (c₂, s)] (top_categories answers) :=
          List.pair_sublist_insertionSort (le_refl s) hl's
        have hfil := List.Sublist.filter (fun p => 0 < p.2) hsorted
        have heq : [(c₁, s), (c₂, s)].filter (fun p => 0 < p.2) = [(c₁, s), (c₂, s)] := by
          simp [hpos]
        rw [heq] at hfil
        have hmap := List.Sublist.map Prod.fst hfil
        simpa [top_list] using hmap

theorem claim10_witness :
    List.Sublist [ "Data", "Data Analysis"] (top_list exampleAnswers) :=
  claim10_stable_tie_break exampleAnswers "Data" "Data Analysis" 1
    (by decide) (by decide) (by decide) (by decide)

theorem pyJoin_data (sep : String) (l : List String) :
    (pyJoin sep l).data = List.intercalate sep.data (l.map String.data) := by
  induction l with
  | nil => rfl
  | cons s t ih =>
    cases t with
    | nil => simp [pyJoin, List.intercalate]
    | cons t₂ rest =>
      have hstep : pyJoin sep (s :: t₂ :: rest) = s ++ sep ++ pyJoin sep (t₂ :: rest) := rfl
      rw [hstep, String.data_append, String.data_append, ih]
      simp [List.intercalate, List.intersperse_cons_cons, List.flatten_cons,
        List.append_assoc]

/-- C4: an upload whose filename matches none of the suffixes `.pdf`, `.doc`,
`.docx` yields the unsupported-file-type error payload, independently of the
extraction and LLM outcomes (they are never consulted), and does not raise. -/
theorem claim4_unsupported_type (fname : String)
    (pdfPages : Except String (List (Option String)))
    (docParas : Except String (List String))
    (llm : String → Except String String)
    (h1 : pyEndsWith fname ".pdf" = false)
    (h2 : pyEndsWith fname ".doc" = false)
    (h3 : pyEndsWith fname ".docx" = false) :
    upload_resume fname (Except.ok ()) pdfPages docParas llm =
      UploadResult.errorPayload unsupportedMsg := by
  unfold upload_resume uploadBody
  simp only [h1, h2, h3]
  rfl

theorem claim4_witness :
    upload_resume "resume.txt" (Except.ok ()) (Except.ok []) (Except.ok [])
      (fun _ => Except.ok "ok") = UploadResult.errorPayload unsupportedMsg :=
  claim4_unsupported_type "resume.txt" (Except.ok []) (Except.ok [])
    (fun _ => Except.ok "ok") (by decide) (by decide) (by decide)

/-- C5: the truncation applied to the extracted resume text before it is
embedded in the suggestion prompt keeps exactly the first 3000 characters:
texts of more than 3000 characters are cut to exactly 3000 characters and
shorter texts pass through unchanged. -/
theorem claim5_truncation (s : String) :
    (pySlice s 3000).data = s.data.take 3000 ∧
    (pySlice s 3000).data.length = min 3000 s.data.length ∧
    (3000 ≤ s.data.length → (pySlice s 3000).data.length = 3000) ∧
    (s.data.length ≤ 3000 → pySlice s 3000 = s) := by
  obtain ⟨d⟩ := s
  refine ⟨rfl, ?_, ?_, ?_⟩
  · exact List.length_take 3000 d
  · intro h
    show (d.take 3000).length = 3000
    rw [List.length_take]
    exact Nat.min_eq_left h
  · intro h
    show (⟨d.take 3000⟩ : String) = ⟨d⟩
    rw [List.take_of_length_le h]

theorem claim5_witness :
    (pySlice ⟨List.replicate 3000 'a'⟩ 3000).data.length = 3000 ∧
    pySlice ⟨List.replicate 3000 'a'⟩ 3000 = ⟨List.replicate 3000 'a'⟩ := by
  have hlen : ((⟨List.replicate 3000 'a'⟩ : String)).data.length = 3000 := by
    show (List.replicate 3000 'a').length = 3000
    rw [List.length_replicate]
  exact ⟨(claim5_truncation ⟨List.replicate 3000 'a'⟩).2.2.1 (by rw [hlen]),
    (claim5_truncation ⟨List.replicate 3000 'a'⟩).2.2.2 (by rw [hlen])⟩

/-- C6: on a PDF upload the extracted text is the page texts in page order,
an empty string standing in for pages whose extraction yields nothing,
joined by single newline characters; this text (truncated) is what reaches
the LLM, whose outcome alone decides the response. -/
theorem claim6_pdf_extraction (fname : String) (pages : List (Option String))
    (docParas : Except String (List String)) (llm : String → Except String String)
    (h : pyEndsWith fname ".pdf" = true) :
    (pdfExtract pages).data =
      List.intercalate ['\n'] (pages.map (fun p => (p.getD "").data)) ∧
    upload_resume fname (Except.ok ()) (Except.ok pages) docParas llm =
      (match llm (resumePrompt (pySlice (pdfExtract pages) 3000)) with
       | Except.ok out => UploadResult.success fname out
       | Except.error e => UploadResult.errorPayload e) := by
  constructor
  · rw [pdfExtract, pyJoin_data, List.map_map]
    rfl
  · have hb : uploadBody fname (Except.ok ()) (Except.ok pages) docParas llm =
        Except.bind (llm (resumePrompt (pySlice (pdfExtract pages) 3000)))
          (fun out => Except.ok (UploadResult.success fname out)) := by
      unfold uploadBody
      simp only [h, if_true]
      rfl
    unfold upload_resume
    rw [hb]
    cases llm (resumePrompt (pySlice (pdfExtract pages) 3000)) with
    | ok out => rfl
    | error e => rfl

theorem claim6_witness :
    (pdfExtract [some "a", none]).data =
      List.intercalate ['\n'] ([some "a", none].map (fun p => (p.getD "").data)) ∧
    upload_resume "cv.pdf" (Except.ok ()) (Except.ok [some "a", none]) (Except.ok [])
      (fun p => Except.ok p) =
      (match (fun p => (Except.ok p : Except String String))
          (resumePrompt (pySlice (pdfExtract [some "a", none]) 3000)) with
       | Except.ok out => UploadResult.success "cv.pdf" out
       | Except.error e => UploadResult.errorPayload e) :=
  claim6_pdf_extraction "cv.pdf" [some "a", none] (Except.ok [])
    (fun p => Except.ok p) (by decide)

/-- C7: `upload_resume` is the `try:` body with a catch-all handler: when
any step of the body raises with message `e` the handler returns the error
payload carrying `e`, when the body returns a payload that payload is
returned unchanged, and every upload produces a payload (success or error)
rather than propagating an exception. -/
theorem claim7_catch_all (fname : String) (readRes : Except String Unit)
    (pdfPages : Except String (List (Option String)))
    (docParas : Except String (List String))
    (llm : String → Except String String) :
    (∀ e, uploadBody fname readRes pdfPages docParas llm = Except.error e →
      upload_resume fname readRes pdfPages docParas llm = UploadResult.errorPayload e) ∧
    (∀ res, uploadBody fname readRes pdfPages docParas llm = Except.ok res →
      upload_resume fname readRes pdfPages docParas llm = res) ∧
    ((∃ msg, upload_resume fname readRes pdfPages docParas llm =
        UploadResult.errorPayload msg) ∨
      (∃ f out, upload_resume fname readRes pdfPages docParas llm =
        UploadResult.success f out)) := by
  refine ⟨?_, ?_, ?_⟩
  · intro e he
    unfold upload_resume
    rw [he]
  · intro res hres
    unfold upload_resume
    rw [hres]
  · cases hres : upload_resume fname readRes pdfPages docParas llm with
    | success f out => exact Or.inr ⟨f, out, rfl⟩
    | errorPayload msg => exact Or.inl ⟨msg, rfl⟩

theorem claim7_witness :
    upload_resume "cv.pdf" (Except.ok ()) (Except.error "bad pdf") (Except.ok [])
      (fun _ => Except.ok "ok") = UploadResult.errorPayload "bad pdf" :=
  (claim7_catch_all "cv.pdf" (Except.ok ()) (Except.error "bad pdf") (Except.ok [])
    (fun _ => Except.ok "ok")).1 "bad pdf" (by rfl)

end CareerCounselor
